import Mathlib

set_option maxRecDepth 100000

/-
Verification development for the nespal palette-matching engine.

The Go source is embedded shallowly:

* `RGBA` models Go's `color.RGBA`: four 8-bit channels.  The program only
  ever manipulates the 8-bit values recovered by `c.RGBA()` followed by
  `>> 8`, so channels are `Fin 256`.
* `load_palette` models the Go function of the same name: a byte source is
  a `List (Fin 256)`; `io.ReadFull` on a 192-byte buffer fails exactly when
  fewer than 192 bytes are available, which is modelled by `Option`.
* `find_closest` models the Go scan.  The Go code computes
  `math.Sqrt(2*dr*dr + 3*dg*dg + 1*db*db)` and compares with `<` against a
  running minimum initialised to `math.MaxFloat64`.  The weighted sums are
  integers in `[0, 390150]`; such integers are exactly representable as
  `float64`, and the correctly rounded `math.Sqrt` is strictly monotone on
  them (consecutive square roots in that range differ by more than
  `1/1250`, far above the rounding error at magnitude `<= 625`), so the
  comparisons performed by the Go code coincide with comparisons of the
  integer sums.  The embedding therefore scans with the integer sum
  `distance` and an initial sentinel `INIT_DISTANCE` strictly larger than
  any attainable sum, which plays the role of `math.MaxFloat64`.  The fact
  that the Go code nevertheless applies a square root to the value it
  calls `distance` is recorded separately (claim C1).
* `Image` models `image.Image`: a bounds rectangle plus an `At` function.
* `has_palette`, `remap`, `identify` follow the Go control flow; early
  `return false` becomes structural recursion that ignores the remaining
  pixels, and Go runtime panics (the `""[1:]` slice in `remap`) become an
  explicit `crashed` outcome.
-/

structure RGBA where
  r : Fin 256
  g : Fin 256
  b : Fin 256
  a : Fin 256
deriving DecidableEq, Repr

def zeroColor : RGBA := ⟨0, 0, 0, 0⟩

/-- The fresh opaque color built by `find_closest` when it records a new
closest entry: `color.RGBA{uint8(pr >> 8), uint8(pg >> 8), uint8(pb >> 8), 255}`. -/
def withFullAlpha (c : RGBA) : RGBA := ⟨c.r, c.g, c.b, 255⟩

/-- The weighted squared-difference sum from `find_closest`:
`2*distancer*distancer + 3*distanceg*distanceg + 1*distanceb*distanceb`,
with the differences taken in signed arithmetic (palette entry minus input
color), before the Go code applies `math.Sqrt` to it. -/
def distance (pc c : RGBA) : ℤ :=
  2 * (((pc.r : ℕ) : ℤ) - ((c.r : ℕ) : ℤ)) ^ 2 +
  3 * (((pc.g : ℕ) : ℤ) - ((c.g : ℕ) : ℤ)) ^ 2 +
  1 * (((pc.b : ℕ) : ℤ) - ((c.b : ℕ) : ℤ)) ^ 2

/-- Stands for the `math.MaxFloat64` initialisation of `min_distance`:
strictly larger than any attainable weighted sum (the maximum is
`2*255^2 + 3*255^2 + 1*255^2 = 390150`). -/
def INIT_DISTANCE : ℤ := 390151

/-- One iteration of the `find_closest` loop: replace the running minimum
and recorded color exactly when the new distance is strictly smaller. -/
def fc_step (c : RGBA) (acc : ℤ × RGBA) (pc : RGBA) : ℤ × RGBA :=
  if distance pc c < acc.1 then (distance pc c, withFullAlpha pc) else acc

/-- `find_closest` from the Go source: linear scan with a running strict
minimum, starting from `min_distance = math.MaxFloat64` and
`var closest color.RGBA` (the zero value `{0,0,0,0}`). -/
def find_closest (c : RGBA) (p : List RGBA) : RGBA :=
  (p.foldl (fc_step c) (INIT_DISTANCE, zeroColor)).2

/-- `load_palette` from the Go source: `io.ReadFull` into a 192-byte buffer
fails when fewer than 192 bytes are available; otherwise 64 entries
`color.RGBA{data[i*3], data[i*3+1], data[i*3+2], 255}` are built. -/
def load_palette (data : List (Fin 256)) : Option (List RGBA) :=
  if data.length < 192 then none
  else some ((List.range 64).map (fun i =>
    ⟨data.getD (i * 3) 0, data.getD (i * 3 + 1) 0, data.getD (i * 3 + 2) 0, 255⟩))

/-- A decoded image: `Bounds()` rectangle plus the `At` accessor. -/
structure Image where
  minX : ℤ
  maxX : ℤ
  minY : ℤ
  maxY : ℤ
  At : ℤ → ℤ → RGBA

/-- The x coordinates visited by `for x := bounds.Min.X; x < bounds.Max.X; x++`. -/
def coordsX (img : Image) : List ℤ :=
  (List.range (img.maxX - img.minX).toNat).map (fun (i : ℕ) => img.minX + (i : ℤ))

/-- The y coordinates visited by `for y := bounds.Min.Y; y < bounds.Max.Y; y++`. -/
def coordsY (img : Image) : List ℤ :=
  (List.range (img.maxY - img.minY).toNat).map (fun (i : ℕ) => img.minY + (i : ℤ))

/-- The per-pixel test of `has_palette`: `false` exactly when
`rc != c.R || gc != c.G || bc != c.B` for `c := find_closest(img.At(x, y), p)`
(alpha is never compared). -/
def pixel_ok (img : Image) (p : List RGBA) (x y : ℤ) : Bool :=
  let c := find_closest (img.At x y) p
  let q := img.At x y
  if q.r ≠ c.r ∨ q.g ≠ c.g ∨ q.b ≠ c.b then false else true

/-- The inner x loop of `has_palette`; `return false` aborts the whole scan,
so the remaining coordinates are never examined. -/
def scan_row (img : Image) (p : List RGBA) (y : ℤ) : List ℤ → Bool
  | [] => true
  | x :: xs => if pixel_ok img p x y then scan_row img p y xs else false

/-- The outer y loop of `has_palette`. -/
def scan_rows (img : Image) (p : List RGBA) : List ℤ → Bool
  | [] => true
  | y :: ys => if scan_row img p y (coordsX img) then scan_rows img p ys else false

/-- `has_palette` from the Go source. -/
def has_palette (img : Image) (p : List RGBA) : Bool :=
  scan_rows img p (coordsY img)

/-- The pixel transform inside `remap`: `image.NewRGBA(bounds)` is
zero-initialised, and every in-bounds position is then set to
`find_closest(img.At(x, y), p)`. -/
def remap_core (img : Image) (p : List RGBA) : Image :=
  ⟨img.minX, img.maxX, img.minY, img.maxY,
   fun x y =>
     if img.minX ≤ x ∧ x < img.maxX ∧ img.minY ≤ y ∧ y < img.maxY then
       find_closest (img.At x y) p
     else zeroColor⟩

/-- `filepath.Ext`: the suffix beginning at the final dot of the final
path element, empty when there is no such dot.  The scan walks the
reversed character list and stops at a path separator. -/
def goExtAux (acc : List Char) : List Char → List Char
  | [] => []
  | ch :: rest =>
    if ch = '/' then []
    else if ch = '.' then '.' :: acc
    else goExtAux (ch :: acc) rest

def goExt (path : String) : String :=
  String.mk (goExtAux [] path.data.reverse)

/-- Go string slicing `s[1:]`: a runtime panic (modelled as `none`) when
the string is empty, since the lower bound 1 then exceeds the length. -/
def goStringFrom1 (s : String) : Option String :=
  match s.data with
  | [] => none
  | _ :: cs => some (String.mk cs)

/-- Outcome of the Go `remap` function (file creation and the actual codec
work are external I/O and are not modelled). -/
inductive RemapResult where
  | errLoad
  | crashed
  | errUnsupported
  | ok (out : Image)

/-- `remap` from the Go source: load the palette, remap every pixel, then
`switch filepath.Ext(remappedf.Name())[1:]` — which panics when the
extension is empty, accepts `png`/`jpg`/`jpeg`, and otherwise returns
`(2, errors.New("Output type is not a supported format"))`. -/
def remap (img : Image) (pal_src : List (Fin 256)) (dst : String) : RemapResult :=
  match load_palette pal_src with
  | none => RemapResult.errLoad
  | some p =>
    let out := remap_core img p
    match goStringFrom1 (goExt dst) with
    | none => RemapResult.crashed
    | some e =>
      if e = "png" then RemapResult.ok out
      else if e = "jpg" ∨ e = "jpeg" then RemapResult.ok out
      else RemapResult.errUnsupported

/-- Outcome of the Go `identify` function.  `matched` and `noMatchMsg`
both return `(0, nil)` but print different reports; `silentOk` is the
`custom_only && len(custom_pals) > 0` early return, which returns
`(0, nil)` without printing anything; `errMissingCandidate` is the
`(2, ...)` usage error; `errDecode` is any `(1, err)` propagated failure. -/
inductive IdentifyResult where
  | matched (name : String)
  | noMatchMsg
  | silentOk
  | errMissingCandidate
  | errDecode
deriving DecidableEq, Repr

/-- One candidate loop of `identify`: decode each palette (a failure aborts
the whole operation) and stop at the first palette that verifies. -/
def scan_candidates (img : Image) : List (String × List (Fin 256)) → Option IdentifyResult
  | [] => none
  | (nm, src) :: rest =>
    match load_palette src with
    | none => some IdentifyResult.errDecode
    | some p =>
      if has_palette img p then some (IdentifyResult.matched nm)
      else scan_candidates img rest

/-- `identify` from the Go source: scan the caller-supplied palettes first;
then `if custom_only && len(custom_pals) > 0` return silently, `else if
custom_only` fail with the usage error; otherwise scan the built-in
palettes and finally print the no-match report. -/
def identify (img : Image) (customs : List (String × List (Fin 256))) (custom_only : Bool)
    (builtins : List (String × List (Fin 256))) : IdentifyResult :=
  match scan_candidates img customs with
  | some r => r
  | none =>
    if custom_only = true ∧ 0 < customs.length then IdentifyResult.silentOk
    else if custom_only = true then IdentifyResult.errMissingCandidate
    else
      match scan_candidates img builtins with
      | some r => r
      | none => IdentifyResult.noMatchMsg

/- Concrete fixtures used by witnesses and counterexamples. -/

/-- 192 zero bytes: a well-formed palette source decoding to 64 black entries. -/
def zeros192 : List (Fin 256) := List.replicate 192 0

/-- The palette decoded from `zeros192`. -/
def palB64 : List RGBA := List.replicate 64 ⟨0, 0, 0, 255⟩

/-- A single-entry black palette. -/
def palBk : List RGBA := [⟨0, 0, 0, 255⟩]

/-- A 1×1 image whose pixel is opaque `(10,10,10)`. -/
def img1 : Image := ⟨0, 1, 0, 1, fun _ _ => ⟨10, 10, 10, 255⟩⟩

/-- A 1×1 image whose pixel is fully transparent black `(0,0,0,0)`. -/
def imgT : Image := ⟨0, 1, 0, 1, fun _ _ => ⟨0, 0, 0, 0⟩⟩

/-- A two-entry palette with a distance tie for `c2`. -/
def p2 : List RGBA := [⟨2, 0, 0, 255⟩, ⟨0, 0, 0, 255⟩]

def c2 : RGBA := ⟨1, 0, 0, 255⟩

/- Helper lemmas. -/

lemma sq_diff_le (x y : Fin 256) : (((x : ℕ) : ℤ) - ((y : ℕ) : ℤ)) ^ 2 ≤ 65025 := by
  have hx1 : ((x : ℕ) : ℤ) ≤ 255 := by exact_mod_cast Nat.lt_succ_iff.mp x.isLt
  have hx0 : (0 : ℤ) ≤ ((x : ℕ) : ℤ) := Int.ofNat_nonneg _
  have hy1 : ((y : ℕ) : ℤ) ≤ 255 := by exact_mod_cast Nat.lt_succ_iff.mp y.isLt
  have hy0 : (0 : ℤ) ≤ ((y : ℕ) : ℤ) := Int.ofNat_nonneg _
  have h := sq_le_sq' (by linarith : (-255 : ℤ) ≤ ((x : ℕ) : ℤ) - ((y : ℕ) : ℤ))
    (by linarith : ((x : ℕ) : ℤ) - ((y : ℕ) : ℤ) ≤ 255)
  calc (((x : ℕ) : ℤ) - ((y : ℕ) : ℤ)) ^ 2 ≤ (255 : ℤ) ^ 2 := h
    _ = 65025 := by norm_num

/-- Every attainable weighted sum is strictly below the sentinel standing
for `math.MaxFloat64`, so the first palette entry always updates the
running minimum. -/
lemma distance_lt_init (pc c : RGBA) : distance pc c < INIT_DISTANCE := by
  have h1 := sq_diff_le pc.r c.r
  have h2 := sq_diff_le pc.g c.g
  have h3 := sq_diff_le pc.b c.b
  unfold distance INIT_DISTANCE
  linarith

lemma foldl_no_update (c : RGBA) : ∀ (l : List RGBA) (m : ℤ) (cl : RGBA),
    (∀ e ∈ l, ¬ distance e c < m) → l.foldl (fc_step c) (m, cl) = (m, cl) := by
  intro l
  induction l with
  | nil => intro m cl _; rfl
  | cons x xs ih =>
    intro m cl h
    rw [List.foldl_cons]
    have hx : fc_step c (m, cl) x = (m, cl) := by
      unfold fc_step
      rw [if_neg (h x (List.mem_cons_self x xs))]
    rw [hx]
    exact ih m cl (fun e he => h e (List.mem_cons_of_mem x he))

lemma mem_exists_getD (e : RGBA) : ∀ (l : List RGBA), e ∈ l →
    ∃ j, j < l.length ∧ l.getD j zeroColor = e := by
  intro l
  induction l with
  | nil => intro h; cases h
  | cons x xs ih =>
    intro h
    rcases List.mem_cons.mp h with h1 | h2
    · exact ⟨0, by simp, by rw [List.getD_cons_zero, h1]⟩
    · obtain ⟨j, hj, hje⟩ := ih h2
      exact ⟨j + 1, by simpa using hj, by rw [List.getD_cons_succ]; exact hje⟩

/-- The strict running minimum of the `find_closest` loop keeps the first
entry attaining the overall minimum distance, for any starting minimum `m`
strictly above the distance of that entry. -/
lemma foldl_first_min (c : RGBA) : ∀ (l : List RGBA) (i : ℕ) (m : ℤ) (cl : RGBA),
    i < l.length →
    distance (l.getD i zeroColor) c < m →
    (∀ j, j < l.length → distance (l.getD i zeroColor) c ≤ distance (l.getD j zeroColor) c) →
    (∀ j, j < i → distance (l.getD i zeroColor) c < distance (l.getD j zeroColor) c) →
    (l.foldl (fc_step c) (m, cl)).2 = withFullAlpha (l.getD i zeroColor) := by
  intro l
  induction l with
  | nil => intro i m cl hi; exact absurd hi (by simp)
  | cons x xs ih =>
    intro i m cl hi hm hmin hfirst
    rw [List.foldl_cons]
    cases i with
    | zero =>
      rw [List.getD_cons_zero] at hm ⊢
      have hstep : fc_step c (m, cl) x = (distance x c, withFullAlpha x) := by
        unfold fc_step; rw [if_pos hm]
      rw [hstep]
      have hno : ∀ e ∈ xs, ¬ distance e c < distance x c := by
        intro e he
        obtain ⟨j, hj, hje⟩ := mem_exists_getD e xs he
        have hle := hmin (j + 1) (by simpa using hj)
        rw [List.getD_cons_zero, List.getD_cons_succ, hje] at hle
        exact not_lt.mpr hle
      rw [foldl_no_update c xs (distance x c) (withFullAlpha x) hno]
    | succ i' =>
      have hi' : i' < xs.length := by simpa using Nat.lt_of_succ_lt_succ hi
      have hx0 : distance (xs.getD i' zeroColor) c < distance x c := by
        have h0 := hfirst 0 (Nat.succ_pos i')
        rwa [List.getD_cons_succ, List.getD_cons_zero] at h0
      have hm' : distance (xs.getD i' zeroColor) c < m := by
        rw [List.getD_cons_succ] at hm; exact hm
      have hmin' : ∀ j, j < xs.length →
          distance (xs.getD i' zeroColor) c ≤ distance (xs.getD j zeroColor) c := by
        intro j hj
        have hle := hmin (j + 1) (by simpa using Nat.succ_lt_succ hj)
        rwa [List.getD_cons_succ, List.getD_cons_succ] at hle
      have hfirst' : ∀ j, j < i' →
          distance (xs.getD i' zeroColor) c < distance (xs.getD j zeroColor) c := by
        intro j hj
        have hlt := hfirst (j + 1) (Nat.succ_lt_succ hj)
        rwa [List.getD_cons_succ, List.getD_cons_succ] at hlt
      rw [List.getD_cons_succ]
      by_cases hcase : distance x c < m
      · have hstep : fc_step c (m, cl) x = (distance x c, withFullAlpha x) := by
          unfold fc_step; rw [if_pos hcase]
        rw [hstep]
        exact ih i' (distance x c) (withFullAlpha x) hi' hx0 hmin' hfirst'
      · have hstep : fc_step c (m, cl) x = (m, cl) := by
          unfold fc_step; rw [if_neg hcase]
        rw [hstep]
        exact ih i' m cl hi' hm' hmin' hfirst'

lemma foldl_closest_mem (c : RGBA) : ∀ (l : List RGBA) (m : ℤ) (cl : RGBA),
    (l.foldl (fc_step c) (m, cl)).2 = cl ∨
      ∃ e ∈ l, (l.foldl (fc_step c) (m, cl)).2 = withFullAlpha e := by
  intro l
  induction l with
  | nil => intro m cl; exact Or.inl rfl
  | cons x xs ih =>
    intro m cl
    rw [List.foldl_cons]
    by_cases hcase : distance x c < m
    · have hstep : fc_step c (m, cl) x = (distance x c, withFullAlpha x) := by
        unfold fc_step; rw [if_pos hcase]
      rw [hstep]
      rcases ih (distance x c) (withFullAlpha x) with h | ⟨e, he, hee⟩
      · exact Or.inr ⟨x, List.mem_cons_self x xs, h⟩
      · exact Or.inr ⟨e, List.mem_cons_of_mem x he, hee⟩
    · have hstep : fc_step c (m, cl) x = (m, cl) := by
        unfold fc_step; rw [if_neg hcase]
      rw [hstep]
      rcases ih m cl with h | ⟨e, he, hee⟩
      · exact Or.inl h
      · exact Or.inr ⟨e, List.mem_cons_of_mem x he, hee⟩

lemma withFullAlpha_eq (e : RGBA) (h : e.a = 255) : withFullAlpha e = e := by
  cases e
  unfold withFullAlpha
  simp_all

/-- On a non-empty palette of fully opaque entries, `find_closest` returns
a member of the palette. -/
lemma find_closest_mem (c : RGBA) (p : List RGBA) (hne : p ≠ [])
    (hop : ∀ e ∈ p, e.a = 255) : find_closest c p ∈ p := by
  cases p with
  | nil => exact absurd rfl hne
  | cons x xs =>
    unfold find_closest
    rw [List.foldl_cons]
    have hstep : fc_step c (INIT_DISTANCE, zeroColor) x = (distance x c, withFullAlpha x) := by
      unfold fc_step; rw [if_pos (distance_lt_init x c)]
    rw [hstep]
    rcases foldl_closest_mem c xs (distance x c) (withFullAlpha x) with h | ⟨e, he, hee⟩
    · rw [h, withFullAlpha_eq x (hop x (List.mem_cons_self x xs))]
      exact List.mem_cons_self x xs
    · rw [hee, withFullAlpha_eq e (hop e (List.mem_cons_of_mem x he))]
      exact List.mem_cons_of_mem x he

lemma load_palette_length (src : List (Fin 256)) (p : List RGBA)
    (h : load_palette src = some p) : p.length = 64 := by
  unfold load_palette at h
  by_cases hl : src.length < 192
  · rw [if_pos hl] at h; cases h
  · rw [if_neg hl] at h
    rw [← Option.some.inj h]
    simp

lemma load_palette_alpha255 (src : List (Fin 256)) (p : List RGBA)
    (h : load_palette src = some p) : ∀ e ∈ p, e.a = 255 := by
  unfold load_palette at h
  by_cases hl : src.length < 192
  · rw [if_pos hl] at h; cases h
  · rw [if_neg hl] at h
    rw [← Option.some.inj h]
    intro e he
    obtain ⟨i, _, rfl⟩ := List.mem_map.mp he
    rfl

lemma scan_row_eq_all (img : Image) (p : List RGBA) (y : ℤ) :
    ∀ xs : List ℤ, scan_row img p y xs = xs.all (fun x => pixel_ok img p x y) := by
  intro xs
  induction xs with
  | nil => rfl
  | cons x xs ih =>
    cases hpx : pixel_ok img p x y with
    | false => simp [scan_row, hpx]
    | true => simp [scan_row, hpx, ih]

lemma scan_rows_eq_all (img : Image) (p : List RGBA) :
    ∀ ys : List ℤ, scan_rows img p ys = ys.all (fun y => scan_row img p y (coordsX img)) := by
  intro ys
  induction ys with
  | nil => rfl
  | cons y ys ih =>
    cases hrow : scan_row img p y (coordsX img) with
    | false => simp [scan_rows, hrow]
    | true => simp [scan_rows, hrow, ih]

lemma mem_coordsX (img : Image) (x : ℤ) : x ∈ coordsX img ↔ img.minX ≤ x ∧ x < img.maxX := by
  unfold coordsX
  simp only [List.mem_map, List.mem_range]
  constructor
  · rintro ⟨i, hi, rfl⟩
    omega
  · intro h
    exact ⟨(x - img.minX).toNat, by omega, by omega⟩

lemma mem_coordsY (img : Image) (y : ℤ) : y ∈ coordsY img ↔ img.minY ≤ y ∧ y < img.maxY := by
  unfold coordsY
  simp only [List.mem_map, List.mem_range]
  constructor
  · rintro ⟨i, hi, rfl⟩
    omega
  · intro h
    exact ⟨(y - img.minY).toNat, by omega, by omega⟩

lemma pixel_ok_iff (img : Image) (p : List RGBA) (x y : ℤ) :
    pixel_ok img p x y = true ↔
      ((img.At x y).r = (find_closest (img.At x y) p).r ∧
       (img.At x y).g = (find_closest (img.At x y) p).g ∧
       (img.At x y).b = (find_closest (img.At x y) p).b) := by
  unfold pixel_ok
  by_cases h : ((img.At x y).r ≠ (find_closest (img.At x y) p).r ∨
      (img.At x y).g ≠ (find_closest (img.At x y) p).g ∨
      (img.At x y).b ≠ (find_closest (img.At x y) p).b)
  · rw [if_pos h]
    exact iff_of_false (by simp) (by tauto)
  · rw [if_neg h]
    push_neg at h
    exact iff_of_true rfl ⟨h.1, h.2.1, h.2.2⟩

lemma has_palette_iff_pixel_ok (img : Image) (p : List RGBA) :
    has_palette img p = true ↔
      ∀ x y : ℤ, img.minX ≤ x → x < img.maxX → img.minY ≤ y → y < img.maxY →
        pixel_ok img p x y = true := by
  unfold has_palette
  rw [scan_rows_eq_all img p (coordsY img), List.all_eq_true]
  constructor
  · intro h x y hx1 hx2 hy1 hy2
    have hy := h y ((mem_coordsY img y).mpr ⟨hy1, hy2⟩)
    rw [scan_row_eq_all img p y (coordsX img), List.all_eq_true] at hy
    exact hy x ((mem_coordsX img x).mpr ⟨hx1, hx2⟩)
  · intro h y hy
    rw [scan_row_eq_all img p y (coordsX img), List.all_eq_true]
    intro x hx
    exact h x y ((mem_coordsX img x).mp hx).1 ((mem_coordsX img x).mp hx).2
      ((mem_coordsY img y).mp hy).1 ((mem_coordsY img y).mp hy).2

lemma remap_core_At_in_bounds (img : Image) (p : List RGBA) (x y : ℤ)
    (hx1 : img.minX ≤ x) (hx2 : x < img.maxX) (hy1 : img.minY ≤ y) (hy2 : y < img.maxY) :
    (remap_core img p).At x y = find_closest (img.At x y) p := by
  unfold remap_core
  simp [hx1, hx2, hy1, hy2]

lemma scan_candidates_none (img : Image) : ∀ l : List (String × List (Fin 256)),
    (∀ pr ∈ l, ∃ p, load_palette pr.2 = some p ∧ has_palette img p = false) →
    scan_candidates img l = none := by
  intro l
  induction l with
  | nil => intro _; rfl
  | cons hd tl ih =>
    intro h
    obtain ⟨p, hp, hhp⟩ := h hd (List.mem_cons_self hd tl)
    have htl := ih (fun pr hpr => h pr (List.mem_cons_of_mem hd hpr))
    cases hd with
    | mk nm src =>
      have hp' : load_palette src = some p := hp
      simp [scan_candidates, hp', hhp, htl]


/- Claim theorems. -/

/-- Claim C1: the spec (and the comment in `find_closest` itself) state that
the distance metric is the weighted squared-difference sum
`2*(Ar-Br)^2 + 3*(Ag-Bg)^2 + 1*(Ab-Bb)^2` with no square root applied.
The Go code, however, applies `math.Sqrt` to that sum.  At
`a = (1,0,0), b = (0,0,0)` the sum is 2 while the code computes `√2 ≠ 2`,
so the value the code calls `distance` is not the claimed one (the square
root being strictly monotone, the resolver's comparisons are unaffected). -/
theorem distance_metric_sqrt_divergence :
    Real.sqrt ((distance ⟨1, 0, 0, 255⟩ ⟨0, 0, 0, 255⟩ : ℤ) : ℝ) ≠
      ((distance ⟨1, 0, 0, 255⟩ ⟨0, 0, 0, 255⟩ : ℤ) : ℝ) := by
  have hd : (distance ⟨1, 0, 0, 255⟩ ⟨0, 0, 0, 255⟩ : ℤ) = 2 := by decide
  rw [hd]
  intro hc
  have h2 : Real.sqrt ((2 : ℤ) : ℝ) ^ 2 = ((2 : ℤ) : ℝ) := Real.sq_sqrt (by norm_num)
  rw [hc] at h2
  norm_num at h2

/-- Claim C2: `has_palette img p` is true exactly when every pixel inside
the image bounds equals its own nearest-palette color channel-for-channel
on R, G and B (alpha ignored), i.e. the image is a fixed point of the
nearest-color projection; and a mismatching pixel makes the scan return
false irrespective of the pixels that would follow it (they are never
visited). -/
theorem has_palette_fixed_point_and_short_circuit (img : Image) (p : List RGBA) :
    (has_palette img p = true ↔
      ∀ x y : ℤ, img.minX ≤ x → x < img.maxX → img.minY ≤ y → y < img.maxY →
        ((img.At x y).r = (find_closest (img.At x y) p).r ∧
         (img.At x y).g = (find_closest (img.At x y) p).g ∧
         (img.At x y).b = (find_closest (img.At x y) p).b)) ∧
    (∀ y x : ℤ, ∀ xs : List ℤ, pixel_ok img p x y = false →
      scan_row img p y (x :: xs) = false) := by
  constructor
  · rw [has_palette_iff_pixel_ok]
    constructor
    · intro h x y hx1 hx2 hy1 hy2
      exact (pixel_ok_iff img p x y).mp (h x y hx1 hx2 hy1 hy2)
    · intro h x y hx1 hx2 hy1 hy2
      exact (pixel_ok_iff img p x y).mpr (h x y hx1 hx2 hy1 hy2)
  · intro y x xs hpx
    simp [scan_row, hpx]

/-- Witness for C2 at a concrete mismatching pixel: the remaining pixel
list `[7, 8]` is irrelevant to the result. -/
theorem has_palette_fixed_point_and_short_circuit_witness :
    pixel_ok img1 palB64 0 0 = false ∧ scan_row img1 palB64 0 (0 :: [7, 8]) = false := by
  have h : pixel_ok img1 palB64 0 0 = false := by decide
  exact ⟨h, (has_palette_fixed_point_and_short_circuit img1 palB64).2 0 0 [7, 8] h⟩

/-- Claim C3 counterexample: a fully transparent black pixel verifies
against a black palette (verification ignores alpha), yet `remap` replaces
it by the opaque `(0,0,0,255)`, so the remapped image is not
pixel-identical to the input. -/
theorem verifies_remap_alpha_counterexample :
    has_palette imgT palBk = true ∧ (remap_core imgT palBk).At 0 0 ≠ imgT.At 0 0 := by
  exact ⟨by decide, by decide⟩

/-- Claim C3 (amended): `has_palette img p` is true iff `remap` agrees with
the input image on the R, G and B channels of every in-bounds pixel.  Full
pixel identity fails in general because `remap` forces alpha to 255 while
verification never inspects alpha. -/
theorem has_palette_iff_remap_rgb_eq (img : Image) (p : List RGBA) :
    has_palette img p = true ↔
      ∀ x y : ℤ, img.minX ≤ x → x < img.maxX → img.minY ≤ y → y < img.maxY →
        (((remap_core img p).At x y).r = (img.At x y).r ∧
         ((remap_core img p).At x y).g = (img.At x y).g ∧
         ((remap_core img p).At x y).b = (img.At x y).b) := by
  rw [has_palette_iff_pixel_ok]
  constructor
  · intro h x y hx1 hx2 hy1 hy2
    have hpo := (pixel_ok_iff img p x y).mp (h x y hx1 hx2 hy1 hy2)
    rw [remap_core_At_in_bounds img p x y hx1 hx2 hy1 hy2]
    exact ⟨hpo.1.symm, hpo.2.1.symm, hpo.2.2.symm⟩
  · intro h x y hx1 hx2 hy1 hy2
    have hr := h x y hx1 hx2 hy1 hy2
    rw [remap_core_At_in_bounds img p x y hx1 hx2 hy1 hy2] at hr
    exact (pixel_ok_iff img p x y).mpr ⟨hr.1.symm, hr.2.1.symm, hr.2.2.symm⟩

/-- Witness for the amended C3 at a concrete verifying image. -/
theorem has_palette_iff_remap_rgb_eq_witness :
    ((remap_core imgT palBk).At 0 0).r = (imgT.At 0 0).r ∧
    ((remap_core imgT palBk).At 0 0).g = (imgT.At 0 0).g ∧
    ((remap_core imgT palBk).At 0 0).b = (imgT.At 0 0).b :=
  (has_palette_iff_remap_rgb_eq imgT palBk).mp (by decide) 0 0
    (by decide) (by decide) (by decide) (by decide)

/-- Claim C4: on an output path with an unsupported extension the Go code
does return the configuration error, but on a path with *no* extension it
does not: `filepath.Ext` yields `""` and the `[1:]` slice panics, so the
process crashes instead of receiving `UnsupportedOutputFormatError`. -/
theorem remap_unsupported_extension_behavior :
    remap img1 zeros192 "output" = RemapResult.crashed ∧
      remap img1 zeros192 "out.txt" = RemapResult.errUnsupported :=
  ⟨rfl, rfl⟩

/-- Claim C5: a byte source shorter than 192 bytes always fails to decode;
no (partial) palette is ever produced. -/
theorem load_palette_short_source (src : List (Fin 256)) (h : src.length < 192) :
    load_palette src = none := by
  unfold load_palette
  rw [if_pos h]

/-- Witness for C5 at the 100-byte source of Scenario C. -/
theorem load_palette_short_source_witness :
    (List.replicate 100 (0 : Fin 256)).length < 192 ∧
      load_palette (List.replicate 100 (0 : Fin 256)) = none :=
  ⟨by decide, load_palette_short_source (List.replicate 100 (0 : Fin 256)) (by decide)⟩

/-- Claim C6: when entry `i` is the first palette entry attaining the
minimum weighted distance to `c` (every earlier entry is strictly farther,
which in particular covers ties among `i` and later entries),
`find_closest` returns entry `i`: the strictly-less-than comparison makes
the lowest index win. -/
theorem find_closest_first_tie (c : RGBA) (p : List RGBA) (i : ℕ)
    (hi : i < p.length)
    (hmin : ∀ j, j < p.length →
      distance (p.getD i zeroColor) c ≤ distance (p.getD j zeroColor) c)
    (hfirst : ∀ j, j < i →
      distance (p.getD i zeroColor) c < distance (p.getD j zeroColor) c) :
    find_closest c p = withFullAlpha (p.getD i zeroColor) := by
  unfold find_closest
  exact foldl_first_min c p i INIT_DISTANCE zeroColor hi
    (distance_lt_init (p.getD i zeroColor) c) hmin hfirst

/-- Witness for C6 at a genuine tie: `(1,0,0)` is equidistant from the
entries `(2,0,0)` and `(0,0,0)`, and the index-0 entry wins. -/
theorem find_closest_first_tie_witness :
    distance (p2.getD 0 zeroColor) c2 = distance (p2.getD 1 zeroColor) c2 ∧
      find_closest c2 p2 = withFullAlpha (p2.getD 0 zeroColor) :=
  ⟨by decide, find_closest_first_tie c2 p2 0 (by decide) (by decide) (by decide)⟩

/-- Claim C7: for any palette decoded by `load_palette` (the only way the
program builds palettes, and what the spec's Palette invariant describes),
the remapped image has bounds identical to the input's, and every in-bounds
output pixel is an entry of the palette. -/
theorem remap_bounds_and_closure (img : Image) (src : List (Fin 256)) (p : List RGBA)
    (h : load_palette src = some p) :
    (remap_core img p).minX = img.minX ∧ (remap_core img p).maxX = img.maxX ∧
    (remap_core img p).minY = img.minY ∧ (remap_core img p).maxY = img.maxY ∧
    ∀ x y : ℤ, img.minX ≤ x → x < img.maxX → img.minY ≤ y → y < img.maxY →
      (remap_core img p).At x y ∈ p := by
  refine ⟨rfl, rfl, rfl, rfl, ?_⟩
  intro x y hx1 hx2 hy1 hy2
  rw [remap_core_At_in_bounds img p x y hx1 hx2 hy1 hy2]
  have hne : p ≠ [] := by
    intro hnil
    have hlen := load_palette_length src p h
    rw [hnil] at hlen
    simp at hlen
  exact find_closest_mem (img.At x y) p hne (load_palette_alpha255 src p h)

/-- Witness for C7 at the all-black decoded palette. -/
theorem remap_bounds_and_closure_witness :
    (remap_core img1 palB64).At 0 0 ∈ palB64 :=
  (remap_bounds_and_closure img1 zeros192 palB64 (by decide)).2.2.2.2 0 0
    (by decide) (by decide) (by decide) (by decide)

/-- Claim C8: custom-only identification with zero supplied custom palettes
is the usage error `MissingCandidateError`; the built-in list (universally
quantified here, so never consulted) cannot influence the outcome. -/
theorem identify_custom_only_no_candidates (img : Image)
    (builtins : List (String × List (Fin 256))) :
    identify img [] true builtins = IdentifyResult.errMissingCandidate := rfl

/-- Claim C9 counterexample: in custom-only mode with one supplied palette
that decodes fine but does not verify, `identify` takes the
`custom_only && len(custom_pals) > 0` early return: it succeeds *silently*
(`silentOk`), without the "No palette matches" verdict the claim promises. -/
theorem identify_custom_only_silent_no_verdict :
    identify img1 [("p", zeros192)] true [] = IdentifyResult.silentOk ∧
      IdentifyResult.silentOk ≠ IdentifyResult.noMatchMsg :=
  ⟨by decide, by decide⟩

/-- Claim C9 (amended): when every candidate decodes and none verifies,
identification never returns an error: with built-ins consulted (not
custom-only) it reports the no-match verdict, while in custom-only mode
with at least one candidate it returns success silently. -/
theorem identify_no_match_success (img : Image)
    (customs builtins : List (String × List (Fin 256))) (co : Bool)
    (hc : ∀ pr ∈ customs, ∃ p, load_palette pr.2 = some p ∧ has_palette img p = false)
    (hb : ∀ pr ∈ builtins, ∃ p, load_palette pr.2 = some p ∧ has_palette img p = false)
    (hne : co = false ∨ customs ≠ []) :
    identify img customs co builtins =
      if co = true then IdentifyResult.silentOk else IdentifyResult.noMatchMsg := by
  unfold identify
  rw [scan_candidates_none img customs hc, scan_candidates_none img builtins hb]
  cases co with
  | false => simp
  | true =>
    have hlen : 0 < customs.length := by
      rcases hne with h | h
      · cases h
      · exact List.length_pos.mpr h
    simp [hlen]

/-- Witness for the amended C9: with built-ins in play and a non-verifying
custom candidate, the outcome is the no-match report. -/
theorem identify_no_match_success_witness :
    identify img1 [("p", zeros192)] false [] = IdentifyResult.noMatchMsg := by
  have h := identify_no_match_success img1 [("p", zeros192)] [] false
    (by
      intro pr hpr
      rw [List.mem_singleton] at hpr
      subst hpr
      exact ⟨palB64, by decide, by decide⟩)
    (by intro pr hpr; cases hpr)
    (Or.inl rfl)
  simpa using h

/-- Claim C10: `find_closest` is total, and on the empty palette the loop
body never runs, so the zero-value `color.RGBA` — all channels and alpha
0 — is returned unchanged. -/
theorem find_closest_empty_palette (c : RGBA) : find_closest c [] = ⟨0, 0, 0, 0⟩ := rfl
